import Mathlib

/-!
Verification development for the PeakRMSCompressorWorkbench DSP core.

Shallow embedding conventions:
* 32-bit float samples and parameters are modelled as exact rationals (`ℚ`)
  where the code only adds, multiplies, compares and divides, and as reals
  (`ℝ`) where the code calls the transcendental JUCE conversions
  (`Decibels::gainToDecibels`, `Decibels::decibelsToGain`) or `sqrt`.
* A `juce::AudioBuffer` is a list of channels, each a list of samples
  (`List (List α)`); `getNumSamples` is the length of channel 0, matching a
  JUCE buffer whose channels all share one sample count.
* The float value `-std::numeric_limits<float>::infinity()` stored in
  `GainComputer::ratio` is modelled as `none : Option ℚ`.
* In-place buffer mutation becomes explicit state passing: a C++ member
  function that mutates `this` and a buffer returns the new object and the
  new buffer.
-/

/-- Number of channels of a buffer (`juce::AudioBuffer::getNumChannels`). -/
def getNumChannels {α : Type} (b : List (List α)) : Nat := b.length

/-- Number of samples of a buffer (`juce::AudioBuffer::getNumSamples`); JUCE
buffers have one sample count shared by all channels, modelled here as the
length of channel 0. -/
def getNumSamples {α : Type} (b : List (List α)) : Nat := (b.headD []).length

/-- A buffer is uniform when every channel holds `getNumSamples` samples,
as every `juce::AudioBuffer` is by construction. -/
def UniformBuffer {α : Type} (b : List (List α)) : Prop :=
  ∀ ch ∈ b, ch.length = getNumSamples b

/-! ## GainComputer (src/Source/dsp/include/GainComputer.h)

The fields of `class GainComputer`.  `ratio = -infinity` is `none`. -/

structure GainComputer (α : Type) where
  threshold : α
  ratio : Option α
  knee : α
  kneeHalf : α
  slope : α
deriving DecidableEq

/-- The `GainComputer::GainComputer()` constructor: threshold -20, ratio 2,
slope 1/ratio - 1 = -1/2, knee 6, kneeHalf 3. -/
def GainComputer.init : GainComputer ℚ :=
  { threshold := -20, ratio := some 2, knee := 6, kneeHalf := 3, slope := 1 / 2 - 1 }

/-- `GainComputer::setThreshold`. -/
def GainComputer.setThreshold {α : Type} (gc : GainComputer α) (newTreshold : α) :
    GainComputer α :=
  { gc with threshold := newTreshold }

/-- `GainComputer::setRatio`: when the ratio changes, store the new ratio,
replace it by -infinity (`none`) when it exceeds 23.9, and recompute
`slope = 1.0f / newRatio - 1.0f` — from the raw `newRatio` argument, exactly
as the source writes it. -/
def GainComputer.setRatio {α : Type} [LinearOrderedField α] [DecidableEq α]
    (gc : GainComputer α) (newRatio : α) : GainComputer α :=
  if gc.ratio ≠ some newRatio then
    { gc with
      ratio := if newRatio > 239 / 10 then none else some newRatio,
      slope := 1 / newRatio - 1 }
  else gc

/-- `GainComputer::setKnee`: update `knee` and `kneeHalf = newKnee / 2` when
the value changes. -/
def GainComputer.setKnee {α : Type} [LinearOrderedField α] [DecidableEq α]
    (gc : GainComputer α) (newKnee : α) : GainComputer α :=
  if newKnee ≠ gc.knee then
    { gc with knee := newKnee, kneeHalf := newKnee / 2 }
  else gc

/-- `GainComputer::applyCompression(float& input)`: the soft-knee static
transfer function, from level in dB to attenuation in dB. -/
def GainComputer.applyCompression {α : Type} [LinearOrderedField α]
    (gc : GainComputer α) (input : α) : α :=
  let overshoot := input - gc.threshold
  if overshoot ≤ -gc.kneeHalf then 0
  else if overshoot > -gc.kneeHalf ∧ overshoot ≤ gc.kneeHalf then
    1 / 2 * gc.slope * ((overshoot + gc.kneeHalf) * (overshoot + gc.kneeHalf)) / gc.knee
  else gc.slope * overshoot

/-! ## LevelDetector (src/Source/dsp/LevelDetector.cpp)

Only the fields that `processPeakBranched` / `processRMSBranched` read are
modelled: the running state `state01` and the two smoothing coefficients.
`prepare`/`setAttack`/`setRelease` compute the coefficients with `exp`, so
the coefficients are plain field values here and the theorems quantify over
them. -/

structure LevelDetector (α : Type) where
  state01 : α
  alphaAttack : α
  alphaRelease : α
deriving DecidableEq

/-- `LevelDetector::processPeakBranched`: branch on `in < state01` (attack
direction, the control signal being negative-going attenuation in dB), update
`state01 = alpha * state01 + (1 - alpha) * in`, return the new state. -/
def LevelDetector.processPeakBranched {α : Type} [LinearOrderedField α]
    (d : LevelDetector α) (input : α) : LevelDetector α × α :=
  let s :=
    if input < d.state01 then d.alphaAttack * d.state01 + (1 - d.alphaAttack) * input
    else d.alphaRelease * d.state01 + (1 - d.alphaRelease) * input
  ({ d with state01 := s }, s)

/-- `LevelDetector::applyPeakDetector(float* src, int numSamples)`: run
`processPeakBranched` over the buffer, writing each new state back in place. -/
def LevelDetector.applyPeakDetector {α : Type} [LinearOrderedField α]
    (d : LevelDetector α) : List α → LevelDetector α × List α
  | [] => (d, [])
  | x :: xs =>
    let step := d.processPeakBranched x
    let rest := step.1.applyPeakDetector xs
    (rest.1, step.2 :: rest.2)

/-- `LevelDetector::processRMSBranched`: same branching one-pole smoother but
on the squared input, compared against `state01` in the power domain. -/
def LevelDetector.processRMSBranched {α : Type} [LinearOrderedField α]
    (d : LevelDetector α) (input : α) : LevelDetector α × α :=
  let inSquared := input * input
  let s :=
    if inSquared > d.state01 then d.alphaAttack * d.state01 + (1 - d.alphaAttack) * inSquared
    else d.alphaRelease * d.state01 + (1 - d.alphaRelease) * inSquared
  ({ d with state01 := s }, s)

/-- The per-sample recurrence of `applyPeakDetector` as §4.1 of the spec
words it: `if x < state` use the attack alpha, else the release alpha;
`state = alpha*state + (1-alpha)*x`; the new state is written back. -/
def peakDetectorStep {α : Type} [LinearOrderedField α] (aA aR state x : α) : α :=
  if x < state then aA * state + (1 - aA) * x else aR * state + (1 - aR) * x

/-- The whole-buffer form of the spec's recurrence: each output sample is the
state after consuming the corresponding input sample. -/
def peakDetectorRun {α : Type} [LinearOrderedField α] (aA aR : α) :
    α → List α → List α
  | _, [] => []
  | state, x :: xs =>
    let s := peakDetectorStep aA aR state x
    s :: peakDetectorRun aA aR s xs

/-! ## Metrics, rational-valued part (src/unnamed/part_008)

`getAverageEnergy`, `getPeakValue` and the shape validation only use
arithmetic and comparisons, so they live over `ℚ`.  The silence threshold
`0.0001f` is the rational 1/10000. -/

/-- `Metrics::getAverageEnergy`: accumulate `x*x` over every channel for the
samples with `|x| >= silenceThreshold`, then divide by
`numSamples * numChannels` — the total sample count of the buffer. -/
def Metrics.getAverageEnergy (buffer : List (List ℚ)) : ℚ :=
  let meanSquare :=
    (buffer.map fun channelData =>
      (channelData.map fun x => if |x| ≥ 1 / 10000 then x * x else 0).sum).sum
  meanSquare / ((getNumSamples buffer * getNumChannels buffer : Nat) : ℚ)

/-- `Metrics::getPeakValue`: running maximum of `|x|` over all channels,
starting from 0. -/
def Metrics.getPeakValue (buffer : List (List ℚ)) : ℚ :=
  buffer.foldl (fun peak channelData => channelData.foldl (fun p x => max p |x|) peak) 0

/-- `Metrics::getRMSValue`: `sqrt` of the mean square, real-valued. -/
noncomputable def Metrics.getRMSValue (meanSquare : ℚ) : ℝ :=
  Real.sqrt (meanSquare : ℝ)

/-- The mean energy as the claim words it: silence-gated samples are excluded
from the numerator and from the denominator, which counts only the non-silent
samples. -/
def specGatedAverageEnergy (buffer : List (List ℚ)) : ℚ :=
  let gated := buffer.flatten.filter fun x => |x| ≥ 1 / 10000
  (gated.map fun x => x * x).sum / (gated.length : ℚ)

/-! ## Metrics state and validation (src/unnamed/part_008, lines 92-130 and
568-599)

`Metrics::CompressionMetrics` (src/Source/metrics/include/Metrics.h) with its
signal pointers as `Option` buffers and its float metric slots as rationals.
The per-metric computations called inside `extractMetrics` involve IIR
filters and dB conversions; for the validation-gating claim they are passed
as an explicit parameter `computeMetrics`, mirroring the lambda of the
source, while `validateSignals` is embedded in full. -/

structure CompressionMetrics where
  signal : Option (List (List ℚ)) := none
  GRSignal : Option (List (List ℚ)) := none
  isCompressed : Bool := false
  meanEnergy : ℚ := 0
  rms : ℚ := 0
  peak : ℚ := 0
  crestFactor : ℚ := 0
  lufs : ℚ := 0
  lra : ℚ := 0
  dynamicRangeReductionCrest : ℚ := 0
  dynamicRangeReductionLRA : ℚ := 0
  transientImpact : ℚ := 0
  transientEnergyPreservation : ℚ := 0
  harmonicDistortion : ℚ := 0
  avgGR : ℚ := 0
  maxGR : ℚ := 0
  stdDevGR : ℚ := 0
  energyGR : ℚ := 0
  rateOfChangeGR : ℚ := 0
  compressionActivityRatio : ℚ := 0
deriving DecidableEq

/-- The `Metrics` object's stored state: the three `CompressionMetrics`
records for the uncompressed, peak-compressed and RMS-compressed roles. -/
structure MetricsState where
  uncompressedMetrics : CompressionMetrics
  peakMetrics : CompressionMetrics
  rmsMetrics : CompressionMetrics
deriving DecidableEq

/-- The five signal pointers `validateSignals` examines, in source order. -/
def MetricsState.fiveSignals (s : MetricsState) : List (Option (List (List ℚ))) :=
  [s.uncompressedMetrics.signal, s.peakMetrics.signal, s.rmsMetrics.signal,
   s.peakMetrics.GRSignal, s.rmsMetrics.GRSignal]

/-- `Metrics::validateSignals`: all five signal pointers non-null, none with
zero samples, and channel counts and sample counts equal along the chain
uncompressed → peak → rms → peakGR → rmsGR.  The C++ `||`/`&&` over decidable
comparisons is written as decided propositions. -/
def Metrics.validateSignals (s : MetricsState) : Bool :=
  if s.uncompressedMetrics.signal = none ∨ s.peakMetrics.signal = none ∨
      s.rmsMetrics.signal = none ∨ s.peakMetrics.GRSignal = none ∨
      s.rmsMetrics.GRSignal = none then
    false
  else if getNumSamples (s.uncompressedMetrics.signal.getD []) = 0 ∨
      getNumSamples (s.peakMetrics.signal.getD []) = 0 ∨
      getNumSamples (s.rmsMetrics.signal.getD []) = 0 ∨
      getNumSamples (s.peakMetrics.GRSignal.getD []) = 0 ∨
      getNumSamples (s.rmsMetrics.GRSignal.getD []) = 0 then
    false
  else
    decide
      ((getNumChannels (s.uncompressedMetrics.signal.getD []) =
          getNumChannels (s.peakMetrics.signal.getD []) ∧
        getNumChannels (s.peakMetrics.signal.getD []) =
          getNumChannels (s.rmsMetrics.signal.getD []) ∧
        getNumChannels (s.rmsMetrics.signal.getD []) =
          getNumChannels (s.peakMetrics.GRSignal.getD []) ∧
        getNumChannels (s.peakMetrics.GRSignal.getD []) =
          getNumChannels (s.rmsMetrics.GRSignal.getD [])) ∧
       (getNumSamples (s.uncompressedMetrics.signal.getD []) =
          getNumSamples (s.peakMetrics.signal.getD []) ∧
        getNumSamples (s.peakMetrics.signal.getD []) =
          getNumSamples (s.rmsMetrics.signal.getD []) ∧
        getNumSamples (s.rmsMetrics.signal.getD []) =
          getNumSamples (s.peakMetrics.GRSignal.getD []) ∧
        getNumSamples (s.peakMetrics.GRSignal.getD []) =
          getNumSamples (s.rmsMetrics.GRSignal.getD [])))

/-- The three sequential `computeMetrics(...)` calls of `extractMetrics`:
each call reads the state as already updated by the previous one, as the
mutating lambda of the source does. -/
def Metrics.computeAllMetrics
    (computeMetrics : MetricsState → CompressionMetrics → CompressionMetrics)
    (s : MetricsState) : MetricsState :=
  let s1 := { s with uncompressedMetrics := computeMetrics s s.uncompressedMetrics }
  let s2 := { s1 with peakMetrics := computeMetrics s1 s1.peakMetrics }
  { s2 with rmsMetrics := computeMetrics s2 s2.rmsMetrics }

/-- `Metrics::extractMetrics`: return at once when `validateSignals` fails,
otherwise run the metric computation over the three records. -/
def Metrics.extractMetrics
    (computeMetrics : MetricsState → CompressionMetrics → CompressionMetrics)
    (s : MetricsState) : MetricsState :=
  if !Metrics.validateSignals s then s
  else Metrics.computeAllMetrics computeMetrics s

/-- The claim's abort condition: some buffer null, some buffer with zero
samples, or two buffers differing in channel count or sample count. -/
def someSignalInvalid (s : MetricsState) : Prop :=
  (∃ o ∈ s.fiveSignals, o = none) ∨
    (∃ o ∈ s.fiveSignals, getNumSamples (o.getD []) = 0) ∨
    (∃ o₁ ∈ s.fiveSignals, ∃ o₂ ∈ s.fiveSignals,
      getNumChannels (o₁.getD []) ≠ getNumChannels (o₂.getD []) ∨
        getNumSamples (o₁.getD []) ≠ getNumSamples (o₂.getD []))

/-- The claim's proceed condition: all five buffers non-null, non-empty, and
pairwise equal in channel count and sample count. -/
def allSignalsValid (s : MetricsState) : Prop :=
  (∀ o ∈ s.fiveSignals, o ≠ none ∧ getNumSamples (o.getD []) ≠ 0) ∧
    ∀ o₁ ∈ s.fiveSignals, ∀ o₂ ∈ s.fiveSignals,
      getNumChannels (o₁.getD []) = getNumChannels (o₂.getD []) ∧
        getNumSamples (o₁.getD []) = getNumSamples (o₂.getD [])

/-! ## MetricsExtractionEngine::run (src/Source/metrics/MetricsExtractionEngine.cpp)

Only `processing` and `progress` are observable from outside during a run.
The four fallible stages — file loading, chunked compression, metrics
computation and export — are collaborator calls, modelled as `Except`
outcomes passed in as parameters.  The source wraps all stages in one
`try`-block whose `catch` handlers rethrow `std::runtime_error`, so an
exception leaves `run` before the trailing `processing = false` statement;
the model returns the engine state at the throw point together with
`some errorMessage`. -/

structure EngineState where
  processing : Bool
  progress : ℚ
deriving DecidableEq

/-- `MetricsExtractionEngine::run`: set `processing = true`, `progress = 0`;
return early (clearing `processing`) when the file does not exist; then run
load (progress 0.3), compression (0.6), metrics (0.8) and export
(1.0), rethrowing any stage's exception; clear `processing` only after the
`try`/`catch` block completes without a throw. -/
def MetricsExtractionEngine.run (fileExistsAsFile : Bool)
    (loadStage compressStage metricsStage exportStage : Except String Unit)
    (s : EngineState) : EngineState × Option String :=
  let s := { s with processing := true, progress := 0 }
  if !fileExistsAsFile then ({ s with processing := false }, none)
  else
    match loadStage with
    | Except.error e => (s, some e)
    | Except.ok _ =>
      let s := { s with progress := 3 / 10 }
      match compressStage with
      | Except.error e => (s, some e)
      | Except.ok _ =>
        let s := { s with progress := 6 / 10 }
        match metricsStage with
        | Except.error e => (s, some e)
        | Except.ok _ =>
          let s := { s with progress := 8 / 10 }
          match exportStage with
          | Except.error e => (s, some e)
          | Except.ok _ => ({ s with progress := 1, processing := false }, none)

/-! ## JUCE decibel conversions (external library, modelled over ℝ)

`juce::Decibels` with the default `minusInfinityDb = -100`. -/

/-- `juce::Decibels::gainToDecibels`: `20 * log10 gain` clamped below at
-100 for positive gains, -100 otherwise. -/
noncomputable def gainToDecibels (gain : ℝ) : ℝ :=
  if 0 < gain then max (-100) (Real.logb 10 gain * 20) else -100

/-- `juce::Decibels::decibelsToGain`: `10 ^ (db / 20)` above -100 dB, 0 at or
below it. -/
noncomputable def decibelsToGain (decibels : ℝ) : ℝ :=
  if decibels > -100 then (10 : ℝ) ^ (decibels * (1 / 20)) else 0

/-! ## Metrics, gain-reduction part (src/unnamed/part_008, lines 418-434) -/

/-- `Metrics::getAverageGainReduction`: convert each linear-gain sample to dB,
skip exact -100 dB samples from the sum of absolute reductions, and divide by
`numSamples * numChannels` — the total sample count. -/
noncomputable def Metrics.getAverageGainReduction (gainReductionBuffer : List (List ℝ)) : ℝ :=
  let totalGainReduction :=
    (gainReductionBuffer.map fun channelData =>
      (channelData.map fun g =>
        let reduction := gainToDecibels g
        if reduction = -100 then 0 else |reduction|).sum).sum
  totalGainReduction /
    ((getNumSamples gainReductionBuffer * getNumChannels gainReductionBuffer : Nat) : ℝ)

/-- The average gain reduction as the claim words it: -100 dB samples are
skipped from the sum and from the count used as the averaging denominator. -/
noncomputable def specGatedAverageGainReduction (gainReductionBuffer : List (List ℝ)) : ℝ :=
  let reductions := gainReductionBuffer.flatten.map gainToDecibels
  (reductions.map fun r => if r = -100 then 0 else |r|).sum /
    ((reductions.countP fun r => decide (r ≠ -100) : Nat) : ℝ)

/-! ## Compressor (src/Source/dsp/Compressor.cpp, single-detector variant,
and the ℝ instances of GainComputer / LevelDetector it drives)

The members `levelDetector`, `gainComputer`, `makeup`, `input`, `prevInput`
and `maxGainReduction`; the scratch copy `originalSignal` is written and
never read back by any verified path, so it is not carried. -/

/-- `GainComputer::applyCompressionToBuffer`: floor each sample at 1e-6,
convert to dB, replace it by the attenuation `applyCompression` computes. -/
noncomputable def GainComputer.applyCompressionToBuffer (gc : GainComputer ℝ)
    (src : List ℝ) : List ℝ :=
  src.map fun x => gc.applyCompression (gainToDecibels (max |x| (1 / 1000000)))

/-- `LevelDetector::applyRMSDetector`: smooth the squared input with
`processRMSBranched`, write back `sqrt state * (1 / sqrt 2)` in place. -/
noncomputable def LevelDetector.applyRMSDetector (d : LevelDetector ℝ) :
    List ℝ → LevelDetector ℝ × List ℝ
  | [] => (d, [])
  | x :: xs =>
    let step := d.processRMSBranched x
    let rest := step.1.applyRMSDetector xs
    (rest.1, Real.sqrt step.2 * (1 / Real.sqrt 2) :: rest.2)

structure Compressor where
  levelDetector : LevelDetector ℝ
  gainComputer : GainComputer ℝ
  makeup : ℝ
  input : ℝ
  prevInput : ℝ
  maxGainReduction : ℝ

/-- `Compressor::applyInputGain`: scale every channel by
`decibelsToGain prevInput` when the input-gain parameter is unchanged,
otherwise apply JUCE's per-sample gain ramp from `decibelsToGain prevInput`
to `decibelsToGain input` and remember the new value. -/
noncomputable def Compressor.applyInputGain (c : Compressor)
    (buffer : List (List ℝ)) (numSamples : Nat) : Compressor × List (List ℝ) :=
  if c.prevInput = c.input then
    (c, buffer.map fun ch => ch.map fun x => x * decibelsToGain c.prevInput)
  else
    let startGain := decibelsToGain c.prevInput
    let endGain := decibelsToGain c.input
    let increment := (endGain - startGain) / (numSamples : ℝ)
    ({ c with prevInput := c.input },
      buffer.map fun ch => ch.mapIdx fun i x => x * (startGain + (i : ℝ) * increment))

/-- `Compressor::setSidechainSignal`: reset `maxGainReduction`, apply the
input gain, then fill the sidechain with `|ch0|` followed by an element-wise
`max` against channel 1, as the two `FloatVectorOperations` calls do.
Returns the updated compressor, the input-gained buffer and the sidechain. -/
noncomputable def Compressor.setSidechainSignal (c : Compressor)
    (buffer : List (List ℝ)) (numSamples : Nat) :
    Compressor × List (List ℝ) × List ℝ :=
  let c := { c with maxGainReduction := 0 }
  let gained := c.applyInputGain buffer numSamples
  let sidechain :=
    List.zipWith (fun a b => max |a| b) (gained.2.headD []) ((gained.2.drop 1).headD [])
  (gained.1, gained.2, sidechain)

/-- `juce::FloatVectorOperations::findMinimum`: 0 for an empty range, else
the least element. -/
def findMinimum (src : List ℝ) : ℝ :=
  match src with
  | [] => 0
  | x :: xs => xs.foldl min x

/-- `Compressor::applyCompressionToInputSignal`: record the most negative
sidechain value as `maxGainReduction`, add makeup and convert the sidechain
to linear gain, and multiply each of the first `numChannels` channels by it. -/
noncomputable def Compressor.applyCompressionToInputSignal (c : Compressor)
    (buffer : List (List ℝ)) (sidechain : List ℝ) (numChannels : Nat)
    (makeup : ℝ) : Compressor × List (List ℝ) :=
  let c := { c with maxGainReduction := findMinimum sidechain }
  let linear := sidechain.map fun v => decibelsToGain (v + makeup)
  (c, buffer.mapIdx fun i ch =>
    if i < numChannels then List.zipWith (fun a b => a * b) ch linear else ch)

/-- `Compressor::saveGainReductionSignal`: a `numChannels × numSamples`
buffer whose every channel receives `decibelsToGain rawSidechainSignal[i]`
at sample `i`. -/
noncomputable def Compressor.saveGainReductionSignal (sidechain : List ℝ)
    (numChannels : Nat) : List (List ℝ) :=
  (List.range numChannels).map fun _ => sidechain.map decibelsToGain

/-- Result of one offline compression call: the updated compressor, the
processed buffer, and the tracked gain-reduction signal when requested. -/
structure CompressionResult where
  compressor : Compressor
  buffer : List (List ℝ)
  gainReductionSignal : Option (List (List ℝ))

/-- `Compressor::applyPeakCompression`: sidechain, gain computer stage,
peak detector stage, optional gain-reduction capture, then apply the
attenuation with makeup to the input buffer. -/
noncomputable def Compressor.applyPeakCompression (c : Compressor)
    (buffer : List (List ℝ)) (numSamples numChannels : Nat) (trackGR : Bool) :
    CompressionResult :=
  let prep := c.setSidechainSignal buffer numSamples
  let sc1 := prep.1.gainComputer.applyCompressionToBuffer prep.2.2
  let det := prep.1.levelDetector.applyPeakDetector sc1
  let c1 := { prep.1 with levelDetector := det.1 }
  let gr := if trackGR then some (Compressor.saveGainReductionSignal det.2 numChannels)
    else none
  let fin := c1.applyCompressionToInputSignal prep.2.1 det.2 numChannels c1.makeup
  { compressor := fin.1, buffer := fin.2, gainReductionSignal := gr }

/-- `Compressor::applyRMSCompression`: sidechain, RMS detector stage, gain
computer stage, optional gain-reduction capture, then apply the attenuation
with makeup to the input buffer. -/
noncomputable def Compressor.applyRMSCompression (c : Compressor)
    (buffer : List (List ℝ)) (numSamples numChannels : Nat) (trackGR : Bool) :
    CompressionResult :=
  let prep := c.setSidechainSignal buffer numSamples
  let det := prep.1.levelDetector.applyRMSDetector prep.2.2
  let sc2 := prep.1.gainComputer.applyCompressionToBuffer det.2
  let c1 := { prep.1 with levelDetector := det.1 }
  let gr := if trackGR then some (Compressor.saveGainReductionSignal sc2 numChannels)
    else none
  let fin := c1.applyCompressionToInputSignal prep.2.1 sc2 numChannels c1.makeup
  { compressor := fin.1, buffer := fin.2, gainReductionSignal := gr }

/-! ## Concrete states used by the witnesses -/

/-- A compressor with concrete rational parameters (threshold -20 dB, ratio 2,
knee 6, the detector coefficients 1/2 and 1/3, no makeup or input gain). -/
noncomputable def witnessCompressor : Compressor :=
  { levelDetector := { state01 := 0, alphaAttack := 1 / 2, alphaRelease := 1 / 3 },
    gainComputer := { threshold := -20, ratio := some 2, knee := 6, kneeHalf := 3,
                      slope := 1 / 2 - 1 },
    makeup := 0, input := 0, prevInput := 0, maxGainReduction := 0 }

/-- A metrics state whose five signals are set, non-empty, and of equal
shape (one channel, one sample). -/
def witnessMetricsValid : MetricsState :=
  { uncompressedMetrics := { signal := some [[1]] },
    peakMetrics := { signal := some [[2]], GRSignal := some [[3]], isCompressed := true },
    rmsMetrics := { signal := some [[4]], GRSignal := some [[5]], isCompressed := true } }

/-- A metrics state whose uncompressed signal pointer is null. -/
def witnessMetricsInvalid : MetricsState :=
  { uncompressedMetrics := { signal := none },
    peakMetrics := { signal := some [[2]], GRSignal := some [[3]], isCompressed := true },
    rmsMetrics := { signal := some [[4]], GRSignal := some [[5]], isCompressed := true } }

/-- A concrete stand-in for the metric-computing lambda. -/
def witnessComputeMetrics : MetricsState → CompressionMetrics → CompressionMetrics :=
  fun _ m => { m with meanEnergy := 42 }

/-! ## Theorems -/

/-- Helper: `applyPeakDetector` computes the spec recurrence, for any
starting detector. -/
theorem applyPeakDetector_eq_peakDetectorRun {α : Type} [LinearOrderedField α]
    (src : List α) : ∀ d : LevelDetector α,
    (d.applyPeakDetector src).2 =
      peakDetectorRun d.alphaAttack d.alphaRelease d.state01 src := by
  induction src with
  | nil => intro d; rfl
  | cons x xs ih =>
    intro d
    simp only [LevelDetector.applyPeakDetector, peakDetectorRun]
    refine congrArg₂ List.cons rfl ?_
    exact ih { d with state01 := (d.processPeakBranched x).2 }

/-- Helper: the spec recurrence preserves the buffer length. -/
theorem peakDetectorRun_length {α : Type} [LinearOrderedField α]
    (aA aR : α) (src : List α) : ∀ state : α,
    (peakDetectorRun aA aR state src).length = src.length := by
  induction src with
  | nil => intro state; rfl
  | cons x xs ih => intro state; simp [peakDetectorRun, ih]

/-- C8: for every buffer, `applyPeakDetector` realises the per-sample
recurrence `state = alphaAttack*state + (1-alphaAttack)*x` when `x < state`
and `state = alphaRelease*state + (1-alphaRelease)*x` otherwise, writing each
new state back in place (one output per input); the attack coefficient is
used exactly when the input is more negative than the state. -/
theorem LevelDetector.applyPeakDetector_recurrence {α : Type} [LinearOrderedField α]
    (d : LevelDetector α) (src : List α) :
    (d.applyPeakDetector src).2 =
      peakDetectorRun d.alphaAttack d.alphaRelease d.state01 src ∧
    (d.applyPeakDetector src).2.length = src.length ∧
    (∀ state x : α, x < state →
      peakDetectorStep d.alphaAttack d.alphaRelease state x =
        d.alphaAttack * state + (1 - d.alphaAttack) * x) ∧
    (∀ state x : α, ¬x < state →
      peakDetectorStep d.alphaAttack d.alphaRelease state x =
        d.alphaRelease * state + (1 - d.alphaRelease) * x) := by
  refine ⟨applyPeakDetector_eq_peakDetectorRun src d, ?_, ?_, ?_⟩
  · rw [applyPeakDetector_eq_peakDetectorRun src d]
    exact peakDetectorRun_length _ _ src d.state01
  · intro state x h
    simp [peakDetectorStep, h]
  · intro state x h
    simp [peakDetectorStep, h]

/-- C7: `applyCompression` is exactly the three-branch soft-knee transfer
function of the claim, and at zero overshoot with the default knee 6 /
kneeHalf 3 it returns `0.5 * slope * kneeHalf^2 / knee`. -/
theorem GainComputer.applyCompression_piecewise (gc : GainComputer ℚ) (level : ℚ) :
    (level - gc.threshold ≤ -gc.kneeHalf → gc.applyCompression level = 0) ∧
    (-gc.kneeHalf < level - gc.threshold ∧ level - gc.threshold ≤ gc.kneeHalf →
      gc.applyCompression level =
        1 / 2 * gc.slope * ((level - gc.threshold + gc.kneeHalf) *
          (level - gc.threshold + gc.kneeHalf)) / gc.knee) ∧
    (0 ≤ gc.kneeHalf → gc.kneeHalf < level - gc.threshold →
      gc.applyCompression level = gc.slope * (level - gc.threshold)) ∧
    (gc.knee = 6 → gc.kneeHalf = 3 → level - gc.threshold = 0 →
      gc.applyCompression level = 1 / 2 * gc.slope * gc.kneeHalf ^ 2 / gc.knee) := by
  refine ⟨?_, ?_, ?_, ?_⟩
  · intro h
    simp only [GainComputer.applyCompression]
    rw [if_pos h]
  · intro h
    simp only [GainComputer.applyCompression]
    rw [if_neg (by linarith [h.1]), if_pos ⟨h.1, h.2⟩]
  · intro h0 h
    simp only [GainComputer.applyCompression]
    rw [if_neg (by linarith), if_neg (by intro hc; linarith [hc.2])]
  · intro hknee hkh h0
    simp only [GainComputer.applyCompression]
    rw [h0, hknee, hkh]
    rw [if_neg (by norm_num), if_pos (by norm_num)]
    ring

/-- Witness for C7: with the constructor-default gain computer (threshold
-20, knee 6, slope -1/2), a level of -30 dB is left alone, the threshold
level lands on the soft-knee value, and 0 dB is compressed linearly. -/
theorem GainComputer.applyCompression_piecewise_witness :
    GainComputer.init.applyCompression (-30) = 0 ∧
    GainComputer.init.applyCompression (-20) =
      1 / 2 * GainComputer.init.slope * GainComputer.init.kneeHalf ^ 2 /
        GainComputer.init.knee ∧
    GainComputer.init.applyCompression 0 =
      GainComputer.init.slope * (0 - GainComputer.init.threshold) := by
  refine ⟨?_, ?_, ?_⟩
  · exact (GainComputer.applyCompression_piecewise GainComputer.init (-30)).1
      (by norm_num [GainComputer.init])
  · exact (GainComputer.applyCompression_piecewise GainComputer.init (-20)).2.2.2
      (by norm_num [GainComputer.init]) (by norm_num [GainComputer.init])
      (by norm_num [GainComputer.init])
  · exact (GainComputer.applyCompression_piecewise GainComputer.init 0).2.2.1
      (by norm_num [GainComputer.init]) (by norm_num [GainComputer.init])

/-- C3 (code evaluation): `setRatio 24` from the default state marks the
ratio as infinite (`none`) but computes the slope from the raw argument:
`slope = 1/24 - 1 = -23/24`, not the `-1` of an infinite-ratio limiter. -/
theorem GainComputer.setRatio_limiting_slope_not_minus_one :
    (GainComputer.init.setRatio 24).ratio = none ∧
    (GainComputer.init.setRatio 24).slope = 1 / 24 - 1 ∧
    (GainComputer.init.setRatio 24).slope ≠ -1 := by
  refine ⟨?_, ?_, ?_⟩ <;> norm_num [GainComputer.setRatio, GainComputer.init]

/-- C2 (code evaluation): when the loader stage throws, `run` propagates the
exception from inside the `try`/`catch` and never reaches the trailing
`processing = false`, so the engine is left with `processing = true`. -/
theorem MetricsExtractionEngine.run_processing_stuck_on_load_error :
    (MetricsExtractionEngine.run true (Except.error "load failed")
        (Except.ok ()) (Except.ok ()) (Except.ok ())
        { processing := false, progress := 0 }).1.processing = true ∧
    (MetricsExtractionEngine.run true (Except.error "load failed")
        (Except.ok ()) (Except.ok ()) (Except.ok ())
        { processing := false, progress := 0 }).2 = some "load failed" := by
  exact ⟨rfl, rfl⟩

/-- Helper: summing `if |x| ≥ 1/10000 then x*x else 0` over a channel equals
summing `x*x` over its non-silent samples. -/
theorem sum_ite_silence (l : List ℚ) :
    (l.map fun x => if |x| ≥ 1 / 10000 then x * x else 0).sum =
      ((l.filter fun x => |x| ≥ 1 / 10000).map fun x => x * x).sum := by
  induction l with
  | nil => rfl
  | cons x xs ih =>
    simp only [List.map_cons, List.sum_cons, List.filter_cons, decide_eq_true_eq]
    by_cases hx : |x| ≥ 1 / 10000
    · rw [if_pos hx, if_pos hx, List.map_cons, List.sum_cons, ih]
    · rw [if_neg hx, if_neg hx, ih, zero_add]

/-- Helper: the gated energy numerator over the channels equals the gated
energy numerator over the flattened buffer. -/
theorem gated_numerator_flatten (buffer : List (List ℚ)) :
    (buffer.map fun channelData =>
      (channelData.map fun x => if |x| ≥ 1 / 10000 then x * x else 0).sum).sum =
      ((buffer.flatten.filter fun x => |x| ≥ 1 / 10000).map fun x => x * x).sum := by
  induction buffer with
  | nil => rfl
  | cons ch rest ih =>
    simp only [List.map_cons, List.sum_cons, List.flatten_cons, List.filter_append,
      List.map_append, List.sum_append]
    rw [sum_ite_silence ch, ih]

/-- C4 counterexample: on the one-channel buffer `[1/2, 0]` the code divides
the gated energy 1/4 by the total sample count 2, not by the single
non-silent sample, so it returns 1/8 where the claim demands 1/4. -/
theorem Metrics.getAverageEnergy_denominator_cex :
    Metrics.getAverageEnergy [[1 / 2, 0]] = 1 / 8 ∧
    specGatedAverageEnergy [[1 / 2, 0]] = 1 / 4 ∧
    Metrics.getAverageEnergy [[1 / 2, 0]] ≠ specGatedAverageEnergy [[1 / 2, 0]] := by
  have hab : |(1 / 2 : ℚ)| = 1 / 2 := abs_of_pos (by norm_num)
  have h1 : Metrics.getAverageEnergy [[1 / 2, 0]] = 1 / 8 := by
    simp only [Metrics.getAverageEnergy, List.map_cons, List.map_nil, List.sum_cons,
      List.sum_nil, getNumSamples, getNumChannels, hab, abs_zero]
    norm_num
  have h2 : specGatedAverageEnergy [[1 / 2, 0]] = 1 / 4 := by
    simp only [specGatedAverageEnergy, List.flatten_cons, List.flatten_nil,
      List.append_nil, List.filter_cons, List.filter_nil, decide_eq_true_eq, hab, abs_zero]
    norm_num
  refine ⟨h1, h2, ?_⟩
  rw [h1, h2]
  norm_num

/-- C4 amended: `getAverageEnergy` excludes silence-gated samples from the
numerator only; the denominator is the buffer's total sample count
`numSamples * numChannels`. -/
theorem Metrics.getAverageEnergy_gates_numerator_only (buffer : List (List ℚ)) :
    Metrics.getAverageEnergy buffer =
      ((buffer.flatten.filter fun x => |x| ≥ 1 / 10000).map fun x => x * x).sum /
        ((getNumSamples buffer * getNumChannels buffer : Nat) : ℚ) := by
  unfold Metrics.getAverageEnergy
  rw [gated_numerator_flatten]

/-- Helper: folding `max p |x|` over an all-zero channel keeps a nonnegative
accumulator. -/
theorem foldl_max_abs_all_zero (l : List ℚ) (p : ℚ) (hp : 0 ≤ p)
    (h : ∀ x ∈ l, x = 0) : l.foldl (fun q x => max q |x|) p = p := by
  induction l generalizing p with
  | nil => rfl
  | cons x xs ih =>
    have hx : x = 0 := h x (by simp)
    have hmax : max p |x| = p := by simp [hx, hp]
    simp only [List.foldl_cons, hmax]
    exact ih p hp fun y hy => h y (by simp [hy])

/-- Helper: an all-zero channel contributes zero gated energy. -/
theorem sum_ite_silence_zero (l : List ℚ) (h : ∀ x ∈ l, x = 0) :
    (l.map fun x => if |x| ≥ 1 / 10000 then x * x else 0).sum = 0 := by
  induction l with
  | nil => rfl
  | cons x xs ih =>
    have hx : x = 0 := h x (by simp)
    have hxs := ih fun y hy => h y (by simp [hy])
    rw [List.map_cons, List.sum_cons, hxs, hx]
    norm_num

/-- Helper: an all-zero buffer has zero gated energy numerator. -/
theorem sum_rows_gated_zero (buffer : List (List ℚ))
    (hz : ∀ ch ∈ buffer, ∀ x ∈ ch, x = 0) :
    (buffer.map fun channelData =>
      (channelData.map fun x => if |x| ≥ 1 / 10000 then x * x else 0).sum).sum = 0 := by
  induction buffer with
  | nil => rfl
  | cons ch rest ih =>
    have h1 := sum_ite_silence_zero ch (hz ch (by simp))
    have h2 := ih fun c hc x hx => hz c (by simp [hc]) x hx
    rw [List.map_cons, List.sum_cons, h1, h2, add_zero]

/-- Helper: the peak fold over an all-zero buffer keeps a nonnegative
accumulator. -/
theorem foldl_peak_all_zero (buffer : List (List ℚ)) : ∀ p : ℚ, 0 ≤ p →
    (∀ ch ∈ buffer, ∀ x ∈ ch, x = 0) →
    buffer.foldl (fun peak channelData =>
      channelData.foldl (fun q x => max q |x|) peak) p = p := by
  induction buffer with
  | nil => intro p _ _; rfl
  | cons ch rest ih =>
    intro p hp hz
    have h1 : ch.foldl (fun q x => max q |x|) p = p :=
      foldl_max_abs_all_zero ch p hp (hz ch (by simp))
    simp only [List.foldl_cons, h1]
    exact ih p hp fun c hc x hx => hz c (by simp [hc]) x hx

/-- C9: on a non-empty all-zero buffer, the mean energy, the peak and the
RMS of the mean energy all evaluate to 0, and the mean-energy denominator
`numSamples * numChannels` is nonzero, so no division by a zero denominator
occurs. -/
theorem Metrics.silence_metrics_zero (buffer : List (List ℚ))
    (hch : 0 < getNumChannels buffer) (hns : 0 < getNumSamples buffer)
    (hz : ∀ ch ∈ buffer, ∀ x ∈ ch, x = 0) :
    Metrics.getAverageEnergy buffer = 0 ∧
    Metrics.getPeakValue buffer = 0 ∧
    Metrics.getRMSValue (Metrics.getAverageEnergy buffer) = 0 ∧
    ((getNumSamples buffer * getNumChannels buffer : Nat) : ℚ) ≠ 0 := by
  have hae : Metrics.getAverageEnergy buffer = 0 := by
    unfold Metrics.getAverageEnergy
    rw [sum_rows_gated_zero buffer hz, zero_div]
  have hpk : Metrics.getPeakValue buffer = 0 :=
    foldl_peak_all_zero buffer 0 le_rfl hz
  refine ⟨hae, hpk, ?_, ?_⟩
  · rw [hae]
    simp [Metrics.getRMSValue]
  · exact Nat.cast_ne_zero.mpr (Nat.mul_pos hns hch).ne'

/-- Witness for C9: the one-channel two-sample silent buffer `[[0, 0]]`. -/
theorem Metrics.silence_metrics_zero_witness :
    Metrics.getAverageEnergy [[0, 0]] = 0 ∧
    Metrics.getPeakValue [[0, 0]] = 0 ∧
    Metrics.getRMSValue (Metrics.getAverageEnergy [[0, 0]]) = 0 ∧
    ((getNumSamples [[(0 : ℚ), 0]] * getNumChannels [[(0 : ℚ), 0]] : Nat) : ℚ) ≠ 0 :=
  Metrics.silence_metrics_zero [[0, 0]] (by decide) (by decide) (by decide)

/-- Helper: `validateSignals` returns `true` exactly on the claim's
all-valid condition (non-null, non-empty, pairwise equal shapes). -/
theorem Metrics.validateSignals_eq_true_iff (s : MetricsState) :
    Metrics.validateSignals s = true ↔ allSignalsValid s := by
  unfold Metrics.validateSignals
  split_ifs with h1 h2
  · simp only [Bool.false_eq_true, false_iff]
    intro hv
    rcases h1 with h | h | h | h | h <;>
      exact (hv.1 _ (by simp [MetricsState.fiveSignals])).1 h
  · simp only [Bool.false_eq_true, false_iff]
    intro hv
    rcases h2 with h | h | h | h | h <;>
      exact (hv.1 _ (by simp [MetricsState.fiveSignals])).2 h
  · rw [decide_eq_true_eq]
    push_neg at h1 h2
    obtain ⟨e1, e2, e3, e4, e5⟩ := h1
    obtain ⟨m1, m2, m3, m4, m5⟩ := h2
    constructor
    · rintro ⟨⟨hc1, hc2, hc3, hc4⟩, hn1, hn2, hn3, hn4⟩
      constructor
      · intro o ho
        simp only [MetricsState.fiveSignals, List.mem_cons, List.not_mem_nil,
          or_false] at ho
        rcases ho with rfl | rfl | rfl | rfl | rfl
        exacts [⟨e1, m1⟩, ⟨e2, m2⟩, ⟨e3, m3⟩, ⟨e4, m4⟩, ⟨e5, m5⟩]
      · intro o1 h01 o2 h02
        simp only [MetricsState.fiveSignals, List.mem_cons, List.not_mem_nil,
          or_false] at h01 h02
        rcases h01 with rfl | rfl | rfl | rfl | rfl <;>
          rcases h02 with rfl | rfl | rfl | rfl | rfl <;>
            exact ⟨by omega, by omega⟩
    · rintro ⟨_, hpair⟩
      refine ⟨⟨?_, ?_, ?_, ?_⟩, ?_, ?_, ?_, ?_⟩ <;>
        first
        | exact (hpair _ (by simp [MetricsState.fiveSignals])
            _ (by simp [MetricsState.fiveSignals])).1
        | exact (hpair _ (by simp [MetricsState.fiveSignals])
            _ (by simp [MetricsState.fiveSignals])).2

/-- Helper: the claim's invalid condition refutes the all-valid condition. -/
theorem someSignalInvalid_not_valid (s : MetricsState) :
    someSignalInvalid s → ¬allSignalsValid s := by
  rintro (⟨o, ho, hnone⟩ | ⟨o, ho, hzero⟩ | ⟨o1, h1, o2, h2, hne⟩) ⟨hnn, hpair⟩
  · exact (hnn o ho).1 hnone
  · exact (hnn o ho).2 hzero
  · rcases hne with hne | hne
    · exact hne (hpair o1 h1 o2 h2).1
    · exact hne (hpair o1 h1 o2 h2).2

/-- C6: when any of the five buffers is null, has zero samples, or differs
from another in channel count or sample count, `extractMetrics` returns with
the stored state unchanged; when all five are non-null, non-empty and of
pairwise equal shape, it proceeds to run the metric computation over the
three records. -/
theorem Metrics.extractMetrics_validation_gate
    (computeMetrics : MetricsState → CompressionMetrics → CompressionMetrics)
    (s : MetricsState) :
    (someSignalInvalid s → Metrics.extractMetrics computeMetrics s = s) ∧
    (allSignalsValid s → Metrics.extractMetrics computeMetrics s =
      Metrics.computeAllMetrics computeMetrics s) := by
  constructor
  · intro h
    have hv : Metrics.validateSignals s = false := by
      cases hb : Metrics.validateSignals s
      · rfl
      · exact absurd ((Metrics.validateSignals_eq_true_iff s).1 hb)
          (someSignalInvalid_not_valid s h)
    simp [Metrics.extractMetrics, hv]
  · intro h
    have hv : Metrics.validateSignals s = true :=
      (Metrics.validateSignals_eq_true_iff s).2 h
    simp [Metrics.extractMetrics, hv]

/-- Witness for C6: a state with a null uncompressed signal is returned
unchanged; a state with five matching one-by-one buffers is computed. -/
theorem Metrics.extractMetrics_validation_gate_witness :
    (Metrics.extractMetrics witnessComputeMetrics witnessMetricsInvalid =
      witnessMetricsInvalid) ∧
    (Metrics.extractMetrics witnessComputeMetrics witnessMetricsValid =
      Metrics.computeAllMetrics witnessComputeMetrics witnessMetricsValid) :=
  ⟨(Metrics.extractMetrics_validation_gate witnessComputeMetrics
      witnessMetricsInvalid).1
    (Or.inl ⟨witnessMetricsInvalid.uncompressedMetrics.signal,
      by simp [MetricsState.fiveSignals], by simp [witnessMetricsInvalid]⟩),
   (Metrics.extractMetrics_validation_gate witnessComputeMetrics
      witnessMetricsValid).2
    (by
      constructor
      · intro o ho
        simp only [MetricsState.fiveSignals, witnessMetricsValid, List.mem_cons,
          List.not_mem_nil, or_false] at ho
        rcases ho with rfl | rfl | rfl | rfl | rfl <;>
          exact ⟨by simp, by simp [getNumSamples]⟩
      · intro o1 h1 o2 h2
        simp only [MetricsState.fiveSignals, witnessMetricsValid, List.mem_cons,
          List.not_mem_nil, or_false] at h1 h2
        rcases h1 with rfl | rfl | rfl | rfl | rfl <;>
          rcases h2 with rfl | rfl | rfl | rfl | rfl <;>
            exact ⟨by simp [getNumChannels], by simp [getNumSamples]⟩)⟩

/-- Helper: `gainToDecibels` of a zero gain is exactly -100 dB. -/
theorem gainToDecibels_zero : gainToDecibels 0 = -100 := by
  simp [gainToDecibels]

/-- Helper: `gainToDecibels (1/10)` is exactly -20 dB. -/
theorem gainToDecibels_tenth : gainToDecibels (1 / 10) = -20 := by
  unfold gainToDecibels
  rw [if_pos (by norm_num)]
  have h : Real.logb 10 (1 / 10 : ℝ) = -1 := by
    rw [one_div, Real.logb_inv, Real.logb_self_eq_one (by norm_num)]
  rw [h]
  norm_num

/-- C5 counterexample: on the one-channel gain-reduction buffer `[0, 1/10]`
(one silent sample, one at -20 dB) the code divides the 20 dB total by the
full sample count 2, not by the single non-skipped sample, so it returns 10
where the claim demands 20. -/
theorem Metrics.getAverageGainReduction_denominator_cex :
    Metrics.getAverageGainReduction [[0, 1 / 10]] = 10 ∧
    specGatedAverageGainReduction [[0, 1 / 10]] = 20 ∧
    Metrics.getAverageGainReduction [[0, 1 / 10]] ≠
      specGatedAverageGainReduction [[0, 1 / 10]] := by
  have h1 : Metrics.getAverageGainReduction [[0, 1 / 10]] = 10 := by
    simp only [Metrics.getAverageGainReduction, List.map_cons, List.map_nil,
      List.sum_cons, List.sum_nil, getNumSamples, getNumChannels,
      gainToDecibels_zero, gainToDecibels_tenth]
    norm_num
  have h2 : specGatedAverageGainReduction [[0, 1 / 10]] = 20 := by
    simp only [specGatedAverageGainReduction, List.flatten_cons, List.flatten_nil,
      List.append_nil, List.map_cons, List.map_nil, gainToDecibels_zero,
      gainToDecibels_tenth, List.countP_cons, List.countP_nil, List.sum_cons,
      List.sum_nil]
    norm_num
  exact ⟨h1, h2, by rw [h1, h2]; norm_num⟩

/-- Helper: the skipped-sum numerator over the channels equals the same sum
over the flattened buffer's per-sample dB conversions. -/
theorem gr_numerator_flatten (b : List (List ℝ)) :
    (b.map fun channelData =>
      (channelData.map fun g =>
        let reduction := gainToDecibels g
        if reduction = -100 then 0 else |reduction|).sum).sum =
      ((b.flatten.map gainToDecibels).map fun r =>
        if r = -100 then 0 else |r|).sum := by
  induction b with
  | nil => rfl
  | cons ch rest ih =>
    simp only [List.map_cons, List.sum_cons, List.flatten_cons, List.map_append,
      List.sum_append, ih, List.map_map]
    rfl

/-- C5 amended: `getAverageGainReduction` converts each sample to dB and
skips exact -100 dB samples from the sum only; the averaging denominator is
the buffer's total sample count `numSamples * numChannels`. -/
theorem Metrics.getAverageGainReduction_skips_sum_only (b : List (List ℝ)) :
    Metrics.getAverageGainReduction b =
      ((b.flatten.map gainToDecibels).map fun r =>
        if r = -100 then 0 else |r|).sum /
        ((getNumSamples b * getNumChannels b : Nat) : ℝ) := by
  unfold Metrics.getAverageGainReduction
  rw [gr_numerator_flatten]

/-- Helper: the input-gain stage touches neither the detector, the gain
computer nor the makeup parameter. -/
theorem Compressor.applyInputGain_preserves (c : Compressor)
    (buffer : List (List ℝ)) (n : Nat) :
    (c.applyInputGain buffer n).1.levelDetector = c.levelDetector ∧
    (c.applyInputGain buffer n).1.gainComputer = c.gainComputer ∧
    (c.applyInputGain buffer n).1.makeup = c.makeup := by
  unfold Compressor.applyInputGain
  split_ifs <;> exact ⟨rfl, rfl, rfl⟩

/-- Helper: building the sidechain touches neither the detector, the gain
computer nor the makeup parameter. -/
theorem Compressor.setSidechainSignal_preserves (c : Compressor)
    (buffer : List (List ℝ)) (n : Nat) :
    (c.setSidechainSignal buffer n).1.levelDetector = c.levelDetector ∧
    (c.setSidechainSignal buffer n).1.gainComputer = c.gainComputer ∧
    (c.setSidechainSignal buffer n).1.makeup = c.makeup := by
  unfold Compressor.setSidechainSignal
  exact Compressor.applyInputGain_preserves { c with maxGainReduction := 0 } buffer n

/-- C1: `applyPeakCompression` feeds the sidechain to the gain computer
first and the peak detector second, while `applyRMSCompression` feeds it to
the RMS detector first and the gain computer second; in both the resulting
attenuation (with makeup, converted to linear gain) multiplies the first
`numChannels` channels, and it is the signal captured as gain reduction. -/
theorem Compressor.compression_stage_order (c : Compressor)
    (buffer : List (List ℝ)) (numSamples numChannels : Nat) (trackGR : Bool) :
    ((c.applyPeakCompression buffer numSamples numChannels trackGR).buffer =
      (c.setSidechainSignal buffer numSamples).2.1.mapIdx fun i ch =>
        if i < numChannels then
          List.zipWith (fun a b => a * b) ch
            (((c.levelDetector.applyPeakDetector
                (c.gainComputer.applyCompressionToBuffer
                  (c.setSidechainSignal buffer numSamples).2.2)).2).map
              fun v => decibelsToGain (v + c.makeup))
        else ch) ∧
    ((c.applyRMSCompression buffer numSamples numChannels trackGR).buffer =
      (c.setSidechainSignal buffer numSamples).2.1.mapIdx fun i ch =>
        if i < numChannels then
          List.zipWith (fun a b => a * b) ch
            ((c.gainComputer.applyCompressionToBuffer
                ((c.levelDetector.applyRMSDetector
                  (c.setSidechainSignal buffer numSamples).2.2)).2).map
              fun v => decibelsToGain (v + c.makeup))
        else ch) ∧
    ((c.applyPeakCompression buffer numSamples numChannels true).gainReductionSignal =
      some (Compressor.saveGainReductionSignal
        ((c.levelDetector.applyPeakDetector
          (c.gainComputer.applyCompressionToBuffer
            (c.setSidechainSignal buffer numSamples).2.2)).2) numChannels)) ∧
    ((c.applyRMSCompression buffer numSamples numChannels true).gainReductionSignal =
      some (Compressor.saveGainReductionSignal
        ((c.gainComputer.applyCompressionToBuffer
          ((c.levelDetector.applyRMSDetector
            (c.setSidechainSignal buffer numSamples).2.2)).2)) numChannels)) := by
  obtain ⟨hld, hgc, hmk⟩ := Compressor.setSidechainSignal_preserves c buffer numSamples
  refine ⟨?_, ?_, ?_, ?_⟩ <;>
    simp only [Compressor.applyPeakCompression, Compressor.applyRMSCompression,
      Compressor.applyCompressionToInputSignal, hld, hgc, hmk, if_true]

/-- Helper: `saveGainReductionSignal` fills every channel with the same row,
`decibelsToGain` of the post-stage sidechain. -/
theorem Compressor.saveGainReductionSignal_eq_replicate (sidechain : List ℝ)
    (numChannels : Nat) :
    Compressor.saveGainReductionSignal sidechain numChannels =
      List.replicate numChannels (sidechain.map decibelsToGain) := by
  unfold Compressor.saveGainReductionSignal
  simp [List.map_const']

/-- C10: after either compression entry point with `trackGR = true` and at
least one channel, the stored gain-reduction buffer is `numChannels` copies
of one row, whose sample `i` is `decibelsToGain` of the post-stage sidechain
value `rawSidechainSignal[i]`. -/
theorem Compressor.gainReduction_identical_channels (c : Compressor)
    (buffer : List (List ℝ)) (numSamples numChannels : Nat)
    (_h : 0 < numChannels) :
    ((c.applyPeakCompression buffer numSamples numChannels true).gainReductionSignal =
      some (List.replicate numChannels
        (((c.levelDetector.applyPeakDetector
          (c.gainComputer.applyCompressionToBuffer
            (c.setSidechainSignal buffer numSamples).2.2)).2).map decibelsToGain))) ∧
    ((c.applyRMSCompression buffer numSamples numChannels true).gainReductionSignal =
      some (List.replicate numChannels
        (((c.gainComputer.applyCompressionToBuffer
          ((c.levelDetector.applyRMSDetector
            (c.setSidechainSignal buffer numSamples).2.2)).2)).map decibelsToGain))) := by
  obtain ⟨hld, hgc, hmk⟩ := Compressor.setSidechainSignal_preserves c buffer numSamples
  constructor <;>
    simp only [Compressor.applyPeakCompression, Compressor.applyRMSCompression,
      hld, hgc, if_true, Compressor.saveGainReductionSignal_eq_replicate]

/-- Witness for C10: the concrete compressor on the stereo one-sample buffer
`[[1], [2]]` with one output channel. -/
theorem Compressor.gainReduction_identical_channels_witness :
    ((witnessCompressor.applyPeakCompression [[1], [2]] 1 1 true).gainReductionSignal =
      some (List.replicate 1
        (((witnessCompressor.levelDetector.applyPeakDetector
          (witnessCompressor.gainComputer.applyCompressionToBuffer
            (witnessCompressor.setSidechainSignal [[1], [2]] 1).2.2)).2).map
          decibelsToGain))) ∧
    ((witnessCompressor.applyRMSCompression [[1], [2]] 1 1 true).gainReductionSignal =
      some (List.replicate 1
        (((witnessCompressor.gainComputer.applyCompressionToBuffer
          ((witnessCompressor.levelDetector.applyRMSDetector
            (witnessCompressor.setSidechainSignal [[1], [2]] 1).2.2)).2)).map
          decibelsToGain))) :=
  Compressor.gainReduction_identical_channels witnessCompressor [[1], [2]] 1 1
    (by norm_num)
